import Mathlib

/-!
Verification of the SFTP client layer in `sftp_server.go`.

The repository is a thin client over a remote filesystem reached through an
SFTP session.  Every public operation connects, performs its work against the
remote state, and closes the session.  We embed the operations shallowly: the
remote filesystem is explicit state, each Go method becomes a Lean function
from state (plus arguments) to state paired with an error/result value, and
the underlying SFTP primitives the code invokes (`Stat`, `Create`, `OpenFile`,
`Write`, `Open`/read, `Mkdir`, `ReadDir`) become operations on that state.
The transport layer (ssh dial and session setup) is excluded by the design:
we model the behaviour after a successful `connect()`; a failed connection
returns the dial error before any filesystem effect, so it does not affect
the state-transformation claims proved here.

Remote calls can fail and the code branches on those failures, so the states
carry fault-injection sets: paths on which `Stat` fails even though the
target exists (a permissions error on stat), paths on which `Mkdir` fails
(e.g. a missing intermediate directory or permission denied), and directory
nodes whose `ReadDir` fails.
-/

namespace SftpServer

/-! ### State and operations for the single-file methods -/

/-- Remote file store used by `AppendToFile`, `OverwriteFile` and `ReadFile`:
`files p` is the content of the file at path `p` (`none` when absent), and
`statFail` is the set of paths on which the remote `Stat` call fails even
though the file may exist (e.g. a permissions error on stat). -/
structure FileFS where
  files : String → Option String
  statFail : List String

/-- Remote `client.Stat filePath` viewed as a boolean: the probe succeeds
(`err == nil` in the Go code) iff the file exists and no stat fault is
injected at that path. -/
def FileFS.statOk (fs : FileFS) (p : String) : Bool :=
  (fs.files p).isSome && !(fs.statFail.contains p)

/-- Remote `client.Create p`: creates the file if absent, truncates it if
present; afterwards the file exists with empty content. -/
def FileFS.create (fs : FileFS) (p : String) : FileFS :=
  { fs with files := fun q => if q = p then some "" else fs.files q }

/-- Writing `d` through an open handle positioned at end of file (the append
handle, or the handle of a freshly created/truncated file): the current
content is extended by `d`. -/
def FileFS.write (fs : FileFS) (p d : String) : FileFS :=
  { fs with files := fun q => if q = p then some ((fs.files p).getD "" ++ d) else fs.files q }

/-- Removing the file at `p`, used to compare a state against the same state
with the target file absent. -/
def FileFS.erase (fs : FileFS) (p : String) : FileFS :=
  { fs with files := fun q => if q = p then none else fs.files q }

/-- Embedding of `SFTPClient.AppendToFile` (sftp_server.go:54-91): stat the
path; if the probe succeeds, open the file with `O_APPEND|O_WRONLY` and write
`data`; on any probe failure fall through to `Create` (create/truncate) and
write `data`.  The open-for-append step fails if the file is absent,
returning that error. -/
def AppendToFile (fs : FileFS) (filePath data : String) : FileFS × Option String :=
  if fs.statOk filePath then
    match fs.files filePath with
    | some _ => (fs.write filePath data, none)
    | none => (fs, some "open failed")
  else
    ((fs.create filePath).write filePath data, none)

/-- Embedding of `SFTPClient.OverwriteFile` (sftp_server.go:93-113):
unconditionally `Create` (create/truncate) the file, then write `data`. -/
def OverwriteFile (fs : FileFS) (filePath data : String) : FileFS × Option String :=
  ((fs.create filePath).write filePath data, none)

/-- Embedding of `SFTPClient.ReadFile` (sftp_server.go:115-137): open the file
for reading and buffer its whole content; if the file is absent the open
fails and that error is returned.  The remote state is returned unchanged in
both branches, mirroring that the Go body performs no write operation. -/
def ReadFile (fs : FileFS) (filePath : String) : FileFS × Except String String :=
  match fs.files filePath with
  | some content => (fs, Except.ok content)
  | none => (fs, Except.error "open failed")

/-- Concrete store for witnesses: one file `/f` with content `X`, no faults. -/
def fileWitFS : FileFS :=
  { files := fun q => if q = "/f" then some "X" else none, statFail := [] }

/-- Concrete store for the stat-fault witness: `/f` holds `X` but stat at
`/f` fails. -/
def statFailWitFS : FileFS :=
  { files := fun q => if q = "/f" then some "X" else none, statFail := ["/f"] }

/-! ### State and operations for the directory-creation methods -/

/-- Remote directory state used by `CreateDirectoryIfNotExist` and
`CreateDirectoryRecursively`: `dirs` are the paths at which `Stat` succeeds
(existing directories), `mkdirFail` are the paths at which `Mkdir` fails
(per the design, a single-level create fails when intermediate segments are
missing, and it can also fail with a permission error). -/
structure DirFS where
  dirs : List String
  mkdirFail : List String
deriving DecidableEq, Repr

/-- A remote call issued while creating directories, with its outcome: a
`Stat` existence probe or a `Mkdir` creation attempt. -/
inductive DirOp where
| statProbe (p : String) (ok : Bool)
| mkdir (p : String) (ok : Bool)
deriving DecidableEq, Repr

/-- Embedding of `SFTPClient.CreateDirectoryIfNotExist`
(sftp_server.go:201-221): stat the path; on success do nothing; otherwise
issue a single-level `Mkdir` and return its error, if any.  The error value
is modelled by the path at which `Mkdir` failed. -/
def CreateDirectoryIfNotExist (fs : DirFS) (dirPath : String) : DirFS × Option String :=
  if fs.dirs.contains dirPath then (fs, none)
  else if fs.mkdirFail.contains dirPath then (fs, some dirPath)
  else ({ fs with dirs := fs.dirs ++ [dirPath] }, none)

/-- Splitting a character list at every `'/'`, keeping empty pieces: the
semantics of Go `strings.Split(s, "/")` on the character level. -/
def splitChars : List Char → List (List Char)
| [] => [[]]
| c :: cs =>
  let r := splitChars cs
  if c = '/' then [] :: r
  else
    match r with
    | a :: rest => (c :: a) :: rest
    | [] => [[c]]

/-- Embedding of Go `strings.Split(s, "/")`: the pieces of `s` between
occurrences of `'/'`, including empty pieces from leading, trailing or
repeated separators. -/
def stringsSplitSlash (s : String) : List String :=
  (splitChars s.data).map fun l => ⟨l⟩

/-- Embedding of the loop body of `SFTPClient.CreateDirectoryRecursively`
(sftp_server.go:231-250): walk the path components left to right, skip empty
components, accumulate `currentPath + "/" + component`, stat the accumulated
path and `Mkdir` it only when the probe fails, aborting with the first
`Mkdir` error.  Besides the final state and error, the list of remote calls
issued (in order) is returned. -/
def createDirLoop : DirFS → List String → String → DirFS × Option String × List DirOp
| fs, [], _ => (fs, none, [])
| fs, component :: rest, currentPath =>
  if component = "" then createDirLoop fs rest currentPath
  else
    let nextPath := currentPath ++ "/" ++ component
    if fs.dirs.contains nextPath then
      let r := createDirLoop fs rest nextPath
      (r.1, r.2.1, DirOp.statProbe nextPath true :: r.2.2)
    else if fs.mkdirFail.contains nextPath then
      (fs, some nextPath, [DirOp.statProbe nextPath false, DirOp.mkdir nextPath false])
    else
      let r := createDirLoop { fs with dirs := fs.dirs ++ [nextPath] } rest nextPath
      (r.1, r.2.1, DirOp.statProbe nextPath false :: DirOp.mkdir nextPath true :: r.2.2)

/-- Embedding of `SFTPClient.CreateDirectoryRecursively`
(sftp_server.go:223-252): split the input on `"/"` and run the
creation loop starting from the empty accumulated path. -/
def CreateDirectoryRecursively (fs : DirFS) (dirPath : String) : DirFS × Option String × List DirOp :=
  createDirLoop fs (stringsSplitSlash dirPath) ""

/-- The accumulated paths the loop visits for a component list, starting
from `cur`: one path per non-empty component, each extending the previous
one by `"/" + component`. -/
def accPrefixes : List String → String → List String
| [], _ => []
| c :: rest, cur =>
  if c = "" then accPrefixes rest cur
  else (cur ++ "/" ++ c) :: accPrefixes rest (cur ++ "/" ++ c)

/-- The accumulated paths `CreateDirectoryRecursively` visits for an input
path: for `"/a/b/c"` these are `/a`, `/a/b`, `/a/b/c`. -/
def pathSteps (p : String) : List String := accPrefixes (stringsSplitSlash p) ""

/-- An accumulated path at which the loop must abort: it is absent from the
initial state and its creation fails. -/
def blockedAt (fs : DirFS) (q : String) : Bool :=
  !fs.dirs.contains q && fs.mkdirFail.contains q

/-- The remote calls the loop issues for a list of accumulated paths none of
which is blocked: one successful probe per existing path, a failed probe
followed by a successful `Mkdir` per absent path. -/
def probeTrace (fs : DirFS) : List String → List DirOp
| [] => []
| q :: rest =>
  (if fs.dirs.contains q then [DirOp.statProbe q true]
   else [DirOp.statProbe q false, DirOp.mkdir q true]) ++ probeTrace fs rest

/-- The accumulated paths that are actually created: those absent from the
initial state, in visiting order. -/
def createdDirs (fs : DirFS) (ps : List String) : List String :=
  ps.filter fun q => !fs.dirs.contains q

/-- Empty directory state for witnesses. -/
def emptyDirFS : DirFS := ⟨[], []⟩

/-- Directory state for the C6 counterexample: nothing exists, and `Mkdir`
at `/a/b` fails (its parent `/a` does not exist, so the single-level create
is rejected by the remote). -/
def mkdirFailWitFS : DirFS := ⟨[], ["/a/b"]⟩

/-- Directory state for the C2 witness: `/a` exists and `Mkdir` at `/x/y`
fails. -/
def c2WitFS : DirFS := ⟨["/a"], ["/x/y"]⟩

/-! ### State and operations for the recursive tree walk -/

/-- Metadata of a remote entry as surfaced by `ReadDir`, apart from its name
and directory flag: size, permission bits, modification time and the opaque
system payload (modelled as a number). -/
structure fileMeta where
  size : Int
  mode : Nat
  modTime : Int
  sys : Nat
deriving DecidableEq, Repr

/-- Embedding of the record type `fileInfo` (sftp_server.go:20-27) produced
by the recursive listing. -/
structure fileInfo where
  name : String
  size : Int
  mode : Nat
  modTime : Int
  isDir : Bool
  Sys : Nat
deriving DecidableEq, Repr

mutual
/-- A remote directory tree as `ReadDir` exposes it: a readable directory
with named entries, a plain file with its metadata, or a directory whose
`ReadDir` call fails with the given error (fault injection for listing
failures at any depth). -/
inductive RTree where
| dir (entries : Entries)
| file (m : fileMeta)
| badDir (e : String)
/-- Named entries of a directory, in the order the remote listing returns
them. -/
inductive Entries where
| nil
| cons (name : String) (t : RTree) (rest : Entries)
end

/-- IsDir flag of an entry: directories, readable or not, report true. -/
def isDirNode : RTree → Bool
| RTree.dir _ => true
| RTree.badDir _ => true
| RTree.file _ => false

mutual
/-- Embedding of `listAllFilesRecursive` (sftp_server.go:171-199) at a node:
`ReadDir` the directory (failing on an unreadable one, and remotely rejected
on a plain file), then process its entries; `allFiles` is the accumulator
the Go code threads through by pointer. -/
def listAllFilesRecursive :
    RTree → String → String → List fileInfo → Except String (List fileInfo)
| RTree.badDir e, _, _, _ => Except.error e
| RTree.file _, _, _, _ => Except.error "readdir failed"
| RTree.dir es, dirPath, pre, allFiles => walkEntries es dirPath pre allFiles

/-- The loop body of `listAllFilesRecursive` over the listed entries: descend
into directory entries with the extended path and relative position, abort on
the first error, and record each non-directory entry with its position
relative to the traversal root. -/
def walkEntries :
    Entries → String → String → List fileInfo → Except String (List fileInfo)
| Entries.nil, _, _, allFiles => Except.ok allFiles
| Entries.cons n t rest, dirPath, pre, allFiles =>
  if isDirNode t then
    match listAllFilesRecursive t (dirPath ++ "/" ++ n) (pre ++ "/" ++ n) allFiles with
    | Except.error e => Except.error e
    | Except.ok acc2 => walkEntries rest dirPath pre acc2
  else
    match t with
    | RTree.file m =>
      walkEntries rest dirPath pre
        (allFiles ++ [⟨pre ++ "/" ++ n, m.size, m.mode, m.modTime, isDirNode t, m.sys⟩])
    | _ => walkEntries rest dirPath pre allFiles
end

/-- Embedding of `SFTPClient.ListAllFiles` (sftp_server.go:154-169): run the
recursive walk rooted at the tree of `dirPath` with empty relative position
and empty accumulator; on any error return the error and no records. -/
def ListAllFiles (t : RTree) (dirPath : String) : Except String (List fileInfo) :=
  match listAllFilesRecursive t dirPath "" [] with
  | Except.error e => Except.error e
  | Except.ok allFiles => Except.ok allFiles

/-- The record the specification expects for a leaf file: its root-relative
path, the metadata copied verbatim, and a directory flag that is false. -/
def mkRecord (n : String) (m : fileMeta) : fileInfo :=
  ⟨n, m.size, m.mode, m.modTime, false, m.sys⟩

mutual
/-- Specification-side description (§3, §8 of the design) of what the walk
should list: the leaf files of the tree paired with their paths relative to
the traversal root — forward-slash separated, always prefixed with `"/"` —
in listing order, with directories themselves never listed. -/
def specRelFiles : RTree → List (String × fileMeta)
| RTree.dir es => specRelEntries es
| RTree.file _ => []
| RTree.badDir _ => []

/-- Specification-side relative paths of the leaf files below a list of
entries. -/
def specRelEntries : Entries → List (String × fileMeta)
| Entries.nil => []
| Entries.cons n (RTree.file m) rest => ("/" ++ n, m) :: specRelEntries rest
| Entries.cons n t rest =>
  ((specRelFiles t).map fun pm => ("/" ++ n ++ pm.1, pm.2)) ++ specRelEntries rest
end

mutual
/-- The first listing failure the walk hits, in traversal order: `ReadDir`
on a plain file is rejected remotely, an unreadable directory yields its
injected error, and a readable directory yields the first failure among its
entries, descending into subdirectories before moving on. -/
def firstErr : RTree → Option String
| RTree.dir es => firstErrEntries es
| RTree.file _ => some "readdir failed"
| RTree.badDir e => some e

/-- First listing failure below a list of entries, in traversal order. -/
def firstErrEntries : Entries → Option String
| Entries.nil => none
| Entries.cons _ t rest =>
  if isDirNode t then
    match firstErr t with
    | some e => some e
    | none => firstErrEntries rest
  else firstErrEntries rest
end

/-- Witness tree: files `f1` and `sub/f2` below the root, where `sub` is a
subdirectory. -/
def witTree : RTree :=
  RTree.dir (Entries.cons "f1" (RTree.file ⟨1, 420, 5, 7⟩)
    (Entries.cons "sub"
      (RTree.dir (Entries.cons "f2" (RTree.file ⟨2, 420, 6, 8⟩) Entries.nil))
      Entries.nil))

/-- Witness tree whose subdirectory listing fails after one good file. -/
def badWitTree : RTree :=
  RTree.dir (Entries.cons "f1" (RTree.file ⟨1, 420, 5, 7⟩)
    (Entries.cons "sub" (RTree.badDir "permission denied") Entries.nil))

/-! ### Theorems about the single-file methods -/

/-- C3: append on an absent file equals overwrite; append on a file holding
`s` (with a working probe) leaves `s ++ d`; two sequential overwrites leave
exactly the second payload. -/
theorem append_overwrite_laws (fs : FileFS) (p d1 d2 : String) :
    (fs.files p = none → AppendToFile fs p d1 = OverwriteFile fs p d1)
    ∧ (∀ s, fs.files p = some s → fs.statFail.contains p = false →
        (AppendToFile fs p d2).1.files p = some (s ++ d2)
          ∧ (AppendToFile fs p d2).2 = none)
    ∧ ((OverwriteFile (OverwriteFile fs p d1).1 p d2).1.files p = some d2
        ∧ ∀ q, (OverwriteFile (OverwriteFile fs p d1).1 p d2).1.files q
            = (OverwriteFile fs p d2).1.files q) := by
  refine ⟨fun habs => ?_, fun s hs hstat => ?_, ?_, fun q => ?_⟩
  · simp [AppendToFile, OverwriteFile, FileFS.statOk, habs]
  · have hstat' : p ∉ fs.statFail := by simpa using hstat
    simp [AppendToFile, FileFS.statOk, hs, hstat', FileFS.write]
  · simp [OverwriteFile, FileFS.create, FileFS.write]
  · by_cases hq : q = p <;>
      simp [OverwriteFile, FileFS.create, FileFS.write, hq]

/-- Witness for C3 at the concrete store `fileWitFS`. -/
theorem append_overwrite_laws_witness :
    AppendToFile fileWitFS "/g" "D" = OverwriteFile fileWitFS "/g" "D"
    ∧ (AppendToFile fileWitFS "/f" "Y").1.files "/f" = some "XY" :=
  ⟨(append_overwrite_laws fileWitFS "/g" "D" "Y").1 (by decide),
   ((append_overwrite_laws fileWitFS "/f" "D" "Y").2.1 "X" (by decide) (by decide)).1⟩

/-- C4: reading a path right after overwriting it with `data` returns exactly
`data`. -/
theorem overwrite_read_roundtrip (fs : FileFS) (p data : String) :
    (ReadFile (OverwriteFile fs p data).1 p).2 = Except.ok data := by
  simp [ReadFile, OverwriteFile, FileFS.create, FileFS.write]

/-- C8: when the stat probe fails at `p` (here by an injected stat fault on
an existing file), `AppendToFile` takes the create path: it succeeds, the old
content is discarded and `p` holds exactly `data`, and the resulting state
and error agree pointwise with running `AppendToFile` on the state in which
`p` does not exist at all. -/
theorem append_statFault_takes_create_path (fs : FileFS) (p data : String)
    (h : fs.statFail.contains p = true) :
    (AppendToFile fs p data).2 = none
    ∧ (AppendToFile fs p data).1.files p = some data
    ∧ (∀ q, (AppendToFile fs p data).1.files q
        = (AppendToFile (fs.erase p) p data).1.files q)
    ∧ (AppendToFile fs p data).2 = (AppendToFile (fs.erase p) p data).2 := by
  have h' : p ∈ fs.statFail := by simpa using h
  refine ⟨?_, ?_, fun q => ?_, ?_⟩
  · simp [AppendToFile, FileFS.statOk, h']
  · simp [AppendToFile, FileFS.statOk, h', FileFS.create, FileFS.write]
  · by_cases hqp : q = p <;>
      simp [AppendToFile, FileFS.statOk, h', FileFS.erase, FileFS.create, FileFS.write, hqp]
  · simp [AppendToFile, FileFS.statOk, h', FileFS.erase]

/-- Witness for C8 at the concrete store `statFailWitFS`. -/
theorem append_statFault_takes_create_path_witness :
    (AppendToFile statFailWitFS "/f" "Y").2 = none
    ∧ (AppendToFile statFailWitFS "/f" "Y").1.files "/f" = some "Y" :=
  ⟨(append_statFault_takes_create_path statFailWitFS "/f" "Y" (by decide)).1,
   (append_statFault_takes_create_path statFailWitFS "/f" "Y" (by decide)).2.1⟩

/-- C10: `ReadFile` never modifies the remote state, whether the read
succeeds or fails. -/
theorem readFile_preserves_state (fs : FileFS) (p : String) :
    (ReadFile fs p).1 = fs := by
  unfold ReadFile
  cases fs.files p <;> rfl

/-! ### Theorems about the directory-creation methods -/

/-- C6 counterexample: `/a/b` is not present, yet after
`CreateDirectoryIfNotExist` the existence probe still reports it absent,
because the single-level `Mkdir` failed (missing parent `/a`). -/
theorem createDirectoryIfNotExist_probe_cex :
    mkdirFailWitFS.dirs.contains "/a/b" = false
    ∧ (CreateDirectoryIfNotExist mkdirFailWitFS "/a/b").1.dirs.contains "/a/b" = false := by
  decide

/-- C6 (amended): when `CreateDirectoryIfNotExist` returns no error, a
subsequent existence probe of the path reports present; and running the
operation twice in a row yields exactly the state and outcome of running it
once, in every case. -/
theorem createDirectoryIfNotExist_succ_probe_idem (fs : DirFS) (p : String) :
    ((CreateDirectoryIfNotExist fs p).2 = none →
      (CreateDirectoryIfNotExist fs p).1.dirs.contains p = true)
    ∧ CreateDirectoryIfNotExist (CreateDirectoryIfNotExist fs p).1 p
        = CreateDirectoryIfNotExist fs p := by
  constructor
  · intro hok
    by_cases h1 : p ∈ fs.dirs
    · simp [CreateDirectoryIfNotExist, h1]
    · by_cases h2 : p ∈ fs.mkdirFail
      · simp [CreateDirectoryIfNotExist, h1, h2] at hok
      · simp [CreateDirectoryIfNotExist, h1, h2]
  · by_cases h1 : p ∈ fs.dirs
    · simp [CreateDirectoryIfNotExist, h1]
    · by_cases h2 : p ∈ fs.mkdirFail
      · simp [CreateDirectoryIfNotExist, h1, h2]
      · simp [CreateDirectoryIfNotExist, h1, h2]

/-- Witness for the amended C6 at the empty directory state. -/
theorem createDirectoryIfNotExist_succ_probe_idem_witness :
    (CreateDirectoryIfNotExist emptyDirFS "/a").1.dirs.contains "/a" = true
    ∧ CreateDirectoryIfNotExist (CreateDirectoryIfNotExist emptyDirFS "/a").1 "/a"
        = CreateDirectoryIfNotExist emptyDirFS "/a" :=
  ⟨(createDirectoryIfNotExist_succ_probe_idem emptyDirFS "/a").1 (by decide),
   (createDirectoryIfNotExist_succ_probe_idem emptyDirFS "/a").2⟩

/-- Empty components are invisible to the creation loop: filtering them out
of the component list leaves the loop's behaviour unchanged. -/
theorem createDirLoop_filter_empty (comps : List String) :
    ∀ (fs : DirFS) (cur : String),
      createDirLoop fs comps cur
        = createDirLoop fs (comps.filter fun c => !(c == "")) cur := by
  induction comps with
  | nil => intro fs cur; rfl
  | cons c rest ih =>
    intro fs cur
    by_cases hc : c = ""
    · subst hc
      simp [createDirLoop, ih]
    · simp [createDirLoop, List.filter_cons, hc, ih]

/-- C9: `CreateDirectoryRecursively` ignores empty slash-split components: a
slash-only (or empty) input issues no remote call, changes nothing and
succeeds, and any two inputs with the same non-empty components are handled
identically (same probes, same creations, same outcome). -/
theorem createDirectoryRecursively_ignores_empty_components
    (fs : DirFS) (p p2 : String) :
    (((stringsSplitSlash p).filter fun c => !(c == "")) = [] →
      CreateDirectoryRecursively fs p = (fs, none, []))
    ∧ (((stringsSplitSlash p).filter fun c => !(c == ""))
          = ((stringsSplitSlash p2).filter fun c => !(c == "")) →
      CreateDirectoryRecursively fs p = CreateDirectoryRecursively fs p2) := by
  constructor
  · intro h
    unfold CreateDirectoryRecursively
    rw [createDirLoop_filter_empty, h]
    rfl
  · intro h
    unfold CreateDirectoryRecursively
    rw [createDirLoop_filter_empty, h, ← createDirLoop_filter_empty]

/-- Witness for C9: a slash-only path is a no-op, and redundant slashes do
not change the behaviour. -/
theorem createDirectoryRecursively_ignores_empty_components_witness :
    CreateDirectoryRecursively emptyDirFS "///" = (emptyDirFS, none, [])
    ∧ CreateDirectoryRecursively emptyDirFS "//a/b/"
        = CreateDirectoryRecursively emptyDirFS "a//b" :=
  ⟨(createDirectoryRecursively_ignores_empty_components emptyDirFS "///" "").1 (by decide),
   (createDirectoryRecursively_ignores_empty_components emptyDirFS "//a/b/" "a//b").2
     (by decide)⟩

/-- Every path the loop visits is strictly longer than the path it starts
from. -/
theorem accPrefixes_length_gt (comps : List String) :
    ∀ (cur q : String), q ∈ accPrefixes comps cur → cur.length < q.length := by
  induction comps with
  | nil => intro cur q hq; simp [accPrefixes] at hq
  | cons c rest ih =>
    intro cur q hq
    have hstep : ∀ s : String, s.length < (s ++ "/" ++ c).length := by
      intro s
      have h1 : ("/" : String).length = 1 := rfl
      simp [String.length_append, h1]
      omega
    by_cases hc : c = ""
    · exact ih cur q (by simpa [accPrefixes, hc] using hq)
    · simp only [accPrefixes, hc, if_false, List.mem_cons] at hq
      rcases hq with rfl | hq
      · exact hstep cur
      · exact lt_trans (hstep cur) (ih (cur ++ "/" ++ c) q hq)

/-- A path that already exists is not blocked. -/
theorem blockedAt_of_mem (fs : DirFS) (q : String) (h : q ∈ fs.dirs) :
    blockedAt fs q = false := by
  simp [blockedAt, h]

/-- An absent path whose creation fails is blocked. -/
theorem blockedAt_of_absent_bad (fs : DirFS) (q : String) (hd : q ∉ fs.dirs)
    (hf : q ∈ fs.mkdirFail) : blockedAt fs q = true := by
  simp [blockedAt, hd, hf]

/-- An absent path whose creation succeeds is not blocked. -/
theorem blockedAt_of_absent_good (fs : DirFS) (q : String) (hd : q ∉ fs.dirs)
    (hf : q ∉ fs.mkdirFail) : blockedAt fs q = false := by
  simp [blockedAt, hd, hf]

/-- An existing path is not created. -/
theorem createdDirs_cons_mem (fs : DirFS) (q : String) (l : List String)
    (h : q ∈ fs.dirs) : createdDirs fs (q :: l) = createdDirs fs l := by
  simp [createdDirs, List.filter_cons, h]

/-- An absent path is created. -/
theorem createdDirs_cons_absent (fs : DirFS) (q : String) (l : List String)
    (h : q ∉ fs.dirs) : createdDirs fs (q :: l) = q :: createdDirs fs l := by
  simp [createdDirs, List.filter_cons, h]

/-- An existing path contributes a single successful probe to the trace. -/
theorem probeTrace_cons_mem (fs : DirFS) (q : String) (l : List String)
    (h : q ∈ fs.dirs) :
    probeTrace fs (q :: l) = DirOp.statProbe q true :: probeTrace fs l := by
  simp [probeTrace, h]

/-- An absent path contributes a failed probe and a successful creation to
the trace. -/
theorem probeTrace_cons_absent (fs : DirFS) (q : String) (l : List String)
    (h : q ∉ fs.dirs) :
    probeTrace fs (q :: l)
      = DirOp.statProbe q false :: DirOp.mkdir q true :: probeTrace fs l := by
  simp [probeTrace, h]

/-- Characterization of the creation loop.  Run from the base state `fs`
whose directory list is augmented by already-created paths `created` (all no
longer than the starting path `cur`), the loop visits the accumulated paths
in order, probing each against the base state and creating the absent ones,
until the first blocked path (absent, creation fails), where it aborts with
that path's creation error, keeping everything created so far. -/
theorem createDirLoop_char (comps : List String) :
    ∀ (fs : DirFS) (created : List String) (cur : String),
      (∀ r ∈ created, r.length ≤ cur.length) →
      createDirLoop ⟨fs.dirs ++ created, fs.mkdirFail⟩ comps cur =
        (match (accPrefixes comps cur).dropWhile (fun r => !blockedAt fs r) with
         | [] =>
           (⟨fs.dirs ++ created ++ createdDirs fs (accPrefixes comps cur), fs.mkdirFail⟩,
            none, probeTrace fs (accPrefixes comps cur))
         | q :: _ =>
           (⟨fs.dirs ++ created
               ++ createdDirs fs ((accPrefixes comps cur).takeWhile fun r => !blockedAt fs r),
             fs.mkdirFail⟩,
            some q,
            probeTrace fs ((accPrefixes comps cur).takeWhile fun r => !blockedAt fs r)
              ++ [DirOp.statProbe q false, DirOp.mkdir q false])) := by
  induction comps with
  | nil =>
    intro fs created cur hlen
    simp [createDirLoop, accPrefixes, createdDirs, probeTrace]
  | cons c rest ih =>
    intro fs created cur hlen
    by_cases hc : c = ""
    · subst hc
      simpa [createDirLoop, accPrefixes] using ih fs created cur hlen
    · have h1 : ("/" : String).length = 1 := rfl
      have hq0len : cur.length < (cur ++ "/" ++ c).length := by
        simp [String.length_append, h1]
        omega
      have hq0nc : (cur ++ "/" ++ c) ∉ created := by
        intro hmem
        have := hlen _ hmem
        omega
      have hlen' : ∀ r ∈ created, r.length ≤ (cur ++ "/" ++ c).length := by
        intro r hr
        have := hlen r hr
        omega
      by_cases hd : (cur ++ "/" ++ c) ∈ fs.dirs
      · have hd2 : (cur ++ "/" ++ c) ∈ fs.dirs ++ created := List.mem_append_left _ hd
        have hr := ih fs created (cur ++ "/" ++ c) hlen'
        have hb := blockedAt_of_mem fs (cur ++ "/" ++ c) hd
        cases hS : (accPrefixes rest (cur ++ "/" ++ c)).dropWhile (fun r => !blockedAt fs r) with
        | nil =>
          rw [hS] at hr
          simp [createDirLoop, hc, hd2, accPrefixes, hb, hS, hr,
            createdDirs_cons_mem fs _ _ hd, probeTrace_cons_mem fs _ _ hd]
        | cons q t =>
          rw [hS] at hr
          simp [createDirLoop, hc, hd2, accPrefixes, hb, hS, hr,
            createdDirs_cons_mem fs _ _ hd, probeTrace_cons_mem fs _ _ hd]
      · have hd2 : (cur ++ "/" ++ c) ∉ fs.dirs ++ created := by
          simp [hd, hq0nc]
        by_cases hf : (cur ++ "/" ++ c) ∈ fs.mkdirFail
        · have hb := blockedAt_of_absent_bad fs (cur ++ "/" ++ c) hd hf
          simp [createDirLoop, hc, hd2, hf, accPrefixes, hb, createdDirs, probeTrace]
        · have hb := blockedAt_of_absent_good fs (cur ++ "/" ++ c) hd hf
          have hlen2 : ∀ r ∈ created ++ [cur ++ "/" ++ c],
              r.length ≤ (cur ++ "/" ++ c).length := by
            intro r hr
            rcases List.mem_append.1 hr with h | h
            · exact hlen' r h
            · simp at h
              subst h
              omega
          have hr := ih fs (created ++ [cur ++ "/" ++ c]) (cur ++ "/" ++ c) hlen2
          cases hS : (accPrefixes rest (cur ++ "/" ++ c)).dropWhile (fun r => !blockedAt fs r) with
          | nil =>
            rw [hS] at hr
            simp [createDirLoop, hc, hd2, hf, accPrefixes, hb, hS, hr, List.append_assoc,
              createdDirs_cons_absent fs _ _ hd, probeTrace_cons_absent fs _ _ hd]
          | cons q t =>
            rw [hS] at hr
            simp [createDirLoop, hc, hd2, hf, accPrefixes, hb, hS, hr, List.append_assoc,
              createdDirs_cons_absent fs _ _ hd, probeTrace_cons_absent fs _ _ hd]

/-- C2: `CreateDirectoryRecursively` visits the accumulated non-empty
prefixes of its input left to right, probing each one and creating exactly
those absent from the initial state, so a prefix is processed only after all
its ancestors were found or created; when no visited prefix is blocked it
succeeds, and at the first blocked prefix (absent and `Mkdir` fails) it
stops with that creation error, keeping every previously created prefix in
place (no rollback). -/
theorem createDirectoryRecursively_spec (fs : DirFS) (p : String) :
    (((pathSteps p).dropWhile fun r => !blockedAt fs r) = [] →
      CreateDirectoryRecursively fs p =
        (⟨fs.dirs ++ createdDirs fs (pathSteps p), fs.mkdirFail⟩, none,
          probeTrace fs (pathSteps p)))
    ∧ ∀ q l, ((pathSteps p).dropWhile fun r => !blockedAt fs r) = q :: l →
      CreateDirectoryRecursively fs p =
        (⟨fs.dirs ++ createdDirs fs ((pathSteps p).takeWhile fun r => !blockedAt fs r),
            fs.mkdirFail⟩,
          some q,
          probeTrace fs ((pathSteps p).takeWhile fun r => !blockedAt fs r)
            ++ [DirOp.statProbe q false, DirOp.mkdir q false]) := by
  have hchar := createDirLoop_char (stringsSplitSlash p) fs [] "" (by simp)
  simp only [List.append_nil, List.nil_append] at hchar
  constructor
  · intro h
    have h' : (accPrefixes (stringsSplitSlash p) "").dropWhile (fun r => !blockedAt fs r)
        = [] := h
    rw [h'] at hchar
    exact hchar
  · intro q l h
    have h' : (accPrefixes (stringsSplitSlash p) "").dropWhile (fun r => !blockedAt fs r)
        = q :: l := h
    rw [h'] at hchar
    exact hchar

/-- Witness for C2 at the concrete state `c2WitFS`: a fully successful run
creating only the missing prefix, and a run that aborts at the second
prefix keeping the first one created. -/
theorem createDirectoryRecursively_spec_witness :
    CreateDirectoryRecursively c2WitFS "/a/b" =
      (⟨["/a", "/a/b"], ["/x/y"]⟩, none,
        [DirOp.statProbe "/a" true, DirOp.statProbe "/a/b" false, DirOp.mkdir "/a/b" true])
    ∧ CreateDirectoryRecursively c2WitFS "/x/y" =
      (⟨["/a", "/x"], ["/x/y"]⟩, some "/x/y",
        [DirOp.statProbe "/x" false, DirOp.mkdir "/x" true,
         DirOp.statProbe "/x/y" false, DirOp.mkdir "/x/y" false]) := by
  constructor
  · have h := (createDirectoryRecursively_spec c2WitFS "/a/b").1 (by decide)
    rw [h]
    decide
  · have h := (createDirectoryRecursively_spec c2WitFS "/x/y").2 "/x/y" [] (by decide)
    rw [h]
    decide

/-! ### Theorems about the recursive tree walk -/

/-- Appending the empty string on the left is the identity. -/
theorem empty_append_str (s : String) : "" ++ s = s := rfl

mutual
/-- Characterization of the recursive walk at a node: it returns the first
listing failure if there is one, and otherwise the accumulator extended by
the specification-side leaf records, each positioned at `pre` plus its
root-relative path. -/
theorem listRec_char (t : RTree) :
    ∀ (dirPath pre : String) (acc : List fileInfo),
    listAllFilesRecursive t dirPath pre acc =
      (match firstErr t with
       | some e => Except.error e
       | none =>
         Except.ok (acc ++ (specRelFiles t).map fun pm => mkRecord (pre ++ pm.1) pm.2)) := by
  cases t with
  | dir es =>
    intro dirPath pre acc
    simpa [listAllFilesRecursive, firstErr, specRelFiles] using walk_char es dirPath pre acc
  | file m => intro dirPath pre acc; simp [listAllFilesRecursive, firstErr]
  | badDir e => intro dirPath pre acc; simp [listAllFilesRecursive, firstErr]

/-- Characterization of the walk's loop over a list of entries. -/
theorem walk_char (es : Entries) :
    ∀ (dirPath pre : String) (acc : List fileInfo),
    walkEntries es dirPath pre acc =
      (match firstErrEntries es with
       | some e => Except.error e
       | none =>
         Except.ok (acc ++ (specRelEntries es).map fun pm => mkRecord (pre ++ pm.1) pm.2)) := by
  cases es with
  | nil => intro dirPath pre acc; simp [walkEntries, firstErrEntries, specRelEntries]
  | cons n t rest =>
    intro dirPath pre acc
    cases t with
    | file m =>
      have hr := walk_char rest dirPath pre
        (acc ++ [⟨pre ++ "/" ++ n, m.size, m.mode, m.modTime, false, m.sys⟩])
      cases hE : firstErrEntries rest with
      | some e =>
        rw [hE] at hr
        simp [walkEntries, isDirNode, firstErrEntries, hE, hr]
      | none =>
        rw [hE] at hr
        simp only [String.append_assoc] at hr
        simp [walkEntries, isDirNode, firstErrEntries, hE, hr, specRelEntries, mkRecord,
          String.append_assoc]
    | dir es2 =>
      have ht := listRec_char (RTree.dir es2) (dirPath ++ "/" ++ n) (pre ++ "/" ++ n) acc
      cases hF : firstErr (RTree.dir es2) with
      | some e =>
        rw [hF] at ht
        simp [walkEntries, isDirNode, firstErrEntries, hF, ht]
      | none =>
        rw [hF] at ht
        have hr := walk_char rest dirPath pre
          (acc ++ (specRelFiles (RTree.dir es2)).map
            fun pm => mkRecord (pre ++ "/" ++ n ++ pm.1) pm.2)
        cases hE : firstErrEntries rest with
        | some e =>
          rw [hE] at hr
          simp [walkEntries, isDirNode, firstErrEntries, hF, hE, ht, hr]
        | none =>
          rw [hE] at hr
          simp only [String.append_assoc, specRelFiles] at ht hr
          simp [walkEntries, isDirNode, firstErrEntries, hF, hE, ht, hr, specRelEntries,
            specRelFiles, String.append_assoc, List.map_map, Function.comp_def]
    | badDir e =>
      simp [walkEntries, isDirNode, listAllFilesRecursive, firstErrEntries, firstErr]
end

/-- C1: every record a successful `ListAllFiles` returns is exactly a
specification-side leaf record — the path is the root-relative position of a
leaf file, `"/"`-joined and independent of the absolute root path — and in
particular no record is a directory. -/
theorem listAllFiles_emits_relative_leaf_records (t : RTree) (dirPath : String)
    (rs : List fileInfo) (h : ListAllFiles t dirPath = Except.ok rs) :
    rs = ((specRelFiles t).map fun pm => mkRecord pm.1 pm.2)
    ∧ ∀ r ∈ rs, r.isDir = false := by
  have hc := listRec_char t dirPath "" []
  unfold ListAllFiles at h
  cases hF : firstErr t with
  | some e =>
    rw [hF] at hc
    rw [hc] at h
    simp at h
  | none =>
    rw [hF] at hc
    rw [hc] at h
    simp only [empty_append_str, List.nil_append] at h
    have hrs : rs = (specRelFiles t).map fun pm => mkRecord pm.1 pm.2 := by
      cases h
      rfl
    refine ⟨hrs, fun r hr => ?_⟩
    rw [hrs] at hr
    obtain ⟨pm, hpm, rfl⟩ := List.mem_map.1 hr
    rfl

/-- Witness for C1 at the two-level tree `witTree`, rooted at `/root`:
the records are `/f1` and `/sub/f2`, with no directory among them. -/
theorem listAllFiles_emits_relative_leaf_records_witness :
    ([⟨"/f1", 1, 420, 5, false, 7⟩, ⟨"/sub/f2", 2, 420, 6, false, 8⟩] : List fileInfo)
      = ((specRelFiles witTree).map fun pm => mkRecord pm.1 pm.2)
    ∧ ∀ r ∈ ([⟨"/f1", 1, 420, 5, false, 7⟩,
        ⟨"/sub/f2", 2, 420, 6, false, 8⟩] : List fileInfo), r.isDir = false :=
  listAllFiles_emits_relative_leaf_records witTree "/root" _ rfl

/-- C5: if some listing fails anywhere in the tree, `ListAllFiles` returns
the first such error and no records at all. -/
theorem listAllFiles_aborts_on_listing_error (t : RTree) (dirPath e : String)
    (h : firstErr t = some e) :
    ListAllFiles t dirPath = Except.error e := by
  have hc := listRec_char t dirPath "" []
  rw [h] at hc
  unfold ListAllFiles
  rw [hc]

/-- Witness for C5 at `badWitTree`: the failing subdirectory aborts the
whole listing even though a file was found first. -/
theorem listAllFiles_aborts_on_listing_error_witness :
    ListAllFiles badWitTree "/root" = Except.error "permission denied" :=
  listAllFiles_aborts_on_listing_error badWitTree "/root" "permission denied" rfl

/-- C7: listing an existing empty directory succeeds with no records. -/
theorem listAllFiles_empty_dir (dirPath : String) :
    ListAllFiles (RTree.dir Entries.nil) dirPath = Except.ok [] := rfl

end SftpServer
